import Mathlib

/-!
Shallow embedding of the agent-to-agent collaboration RPC layer of the
Emergence example-agent repository, and proofs about it.

The embedded code comes from:
* `frontend/public/agent-boilerplate/src/platform_client.py`
  (`PlatformClient.register`, `PlatformClient.ping`,
  `PlatformClient.find_agents`, `PlatformClient.call_agent`);
* `testNetwork/IdeaAgent/main.py`
  (`RealtimeIdeaAgent.collaborate_with_agent`,
  `RealtimeIdeaAgent.wait_for_collaboration_response`,
  `RealtimeIdeaAgent._message_processing_loop`,
  `RealtimeIdeaAgent._health_monitoring_loop`);
* `testNetwork/ValidatorAgent/main.py`
  (`StandaloneValidatorAgent._message_processing_loop`, identical in
  structure to the IdeaAgent loop).

Modelling conventions:
* Python strings are sequences of code points; we embed them as `String`
  and, where the code slices or compares them, work on `String.data`
  (`List Char`), which matches Python's per-character semantics.
* HTTP traffic is embedded as an explicit sequence of per-attempt
  outcomes supplied to each function; a raised `requests` exception is a
  constructor of the outcome type rather than a Lean exception.
* Mutable attributes (`self.instance_id`, `self.processed_messages`) are
  embedded by explicit state passing: the functions return the updated
  state together with their Python return value.
* `time.sleep` calls are recorded in an explicit trace of slept delays
  (as rationals, in seconds), and HTTP attempts are counted, so that the
  retry/backoff schedule can be stated and proved.
* `json.loads` is embedded as `jsonLoads`, a recursive-descent parser
  for JSON values; numeric literals are modelled as integers (no claim
  depends on fractional numbers), and a parse returns `none` exactly
  when `json.loads` would raise `JSONDecodeError` on the modelled
  fragment of JSON.
-/

namespace Emergence

/-- JSON values, the model of what Python's `json.loads` returns. -/
inductive JVal where
  | null
  | bool (b : Bool)
  | num (n : Int)
  | str (s : String)
  | arr (elems : List JVal)
  | obj (fields : List (String × JVal))

/-- The double-quote character. -/
def quoteChar : Char := Char.ofNat 34

/-- The backslash character. -/
def backslashChar : Char := Char.ofNat 92

/-- The opening curly brace character. -/
def lbraceChar : Char := Char.ofNat 123

/-- The closing curly brace character. -/
def rbraceChar : Char := Char.ofNat 125

/-- JSON whitespace characters. -/
def jsonWs (c : Char) : Bool :=
  c = ' ' || c = '\t' || c = '\n' || c = '\r'

/-- Drop leading JSON whitespace. -/
def skipWs : List Char → List Char
  | [] => []
  | c :: cs => if jsonWs c then skipWs cs else c :: cs

/-- Value of a hexadecimal digit. -/
def hexVal (c : Char) : Option Nat :=
  if '0' ≤ c && c ≤ '9' then some (c.toNat - 48)
  else if 'a' ≤ c && c ≤ 'f' then some (c.toNat - 87)
  else if 'A' ≤ c && c ≤ 'F' then some (c.toNat - 55)
  else none

/-- Parse the body of a JSON string literal (after the opening quote),
returning the decoded characters and the input remaining after the
closing quote.  Escapes follow the JSON grammar used by `json.loads`. -/
def parseJStringChars : Nat → List Char → Option (List Char × List Char)
  | 0, _ => none
  | _ + 1, [] => none
  | fuel + 1, c :: cs =>
    if c = quoteChar then some ([], cs)
    else if c = backslashChar then
      match cs with
      | [] => none
      | e :: cs1 =>
        let decoded : Option (Char × List Char) :=
          if e = quoteChar then some (quoteChar, cs1)
          else if e = backslashChar then some (backslashChar, cs1)
          else if e = '/' then some ('/', cs1)
          else if e = 'n' then some ('\n', cs1)
          else if e = 't' then some ('\t', cs1)
          else if e = 'r' then some ('\r', cs1)
          else if e = 'b' then some (Char.ofNat 8, cs1)
          else if e = 'f' then some (Char.ofNat 12, cs1)
          else if e = 'u' then
            match cs1 with
            | h1 :: h2 :: h3 :: h4 :: cs2 =>
              match hexVal h1, hexVal h2, hexVal h3, hexVal h4 with
              | some a, some b, some c2, some d =>
                some (Char.ofNat (((a * 16 + b) * 16 + c2) * 16 + d), cs2)
              | _, _, _, _ => none
            | _ => none
          else none
        match decoded with
        | some (ch, rest) =>
          (parseJStringChars fuel rest).map (fun p => (ch :: p.1, p.2))
        | none => none
    else
      (parseJStringChars fuel cs).map (fun p => (c :: p.1, p.2))

/-- Decimal digit test. -/
def isDigitChar (c : Char) : Bool := '0' ≤ c && c ≤ '9'

/-- Accumulate decimal digits into a natural number. -/
def digitsToNat : List Char → Nat → Nat
  | [], acc => acc
  | c :: cs, acc => digitsToNat cs (acc * 10 + (c.toNat - 48))

/-- Parse a JSON numeric literal.  Fractional and exponent forms are not
modelled (no claim depends on them); integer literals follow
`json.loads`. -/
def parseNumFrom (cs : List Char) : Option (JVal × List Char) :=
  let stripped := match cs with
    | '-' :: r => (true, r)
    | _ => (false, cs)
  let ds := stripped.2.takeWhile isDigitChar
  let rest := stripped.2.dropWhile isDigitChar
  if ds.isEmpty then none
  else
    match rest with
    | '.' :: _ => none
    | 'e' :: _ => none
    | 'E' :: _ => none
    | _ =>
      let n : Int := Int.ofNat (digitsToNat ds 0)
      some (.num (if stripped.1 then -n else n), rest)

/-- Parse the elements of a JSON array after the first element: a
sequence of `, value` groups closed by `]`.  `rec` parses one value. -/
def parseArrRestAux (rec : List Char → Option (JVal × List Char)) :
    Nat → List Char → Option (List JVal × List Char)
  | 0, _ => none
  | fuel + 1, cs =>
    match skipWs cs with
    | ']' :: r => some ([], r)
    | ',' :: r =>
      (rec r).bind fun p =>
        (parseArrRestAux rec fuel p.2).map fun q => (p.1 :: q.1, q.2)
    | _ => none

/-- Parse the fields of a JSON object after the first field: a sequence
of `, "key": value` groups closed by a closing brace. -/
def parseObjRestAux (rec : List Char → Option (JVal × List Char)) :
    Nat → List Char → Option (List (String × JVal) × List Char)
  | 0, _ => none
  | fuel + 1, cs =>
    match skipWs cs with
    | c :: r =>
      if c = rbraceChar then some ([], r)
      else if c = ',' then
        match skipWs r with
        | c2 :: r1 =>
          if c2 = quoteChar then
            (parseJStringChars (r1.length + 1) r1).bind fun kp =>
              match skipWs kp.2 with
              | ':' :: r2 =>
                (rec r2).bind fun vp =>
                  (parseObjRestAux rec fuel vp.2).map fun q =>
                    ((String.mk kp.1, vp.1) :: q.1, q.2)
              | _ => none
          else none
        | [] => none
      else none
    | [] => none

/-- Parse one JSON value, with `fuel` bounding the nesting depth.  Each
recursive level consumes at least one input character, so any fuel of at
least the input length is enough. -/
def parseVal : Nat → List Char → Option (JVal × List Char)
  | 0, _ => none
  | fuel + 1, cs =>
    match skipWs cs with
    | [] => none
    | c :: rest =>
      if c = lbraceChar then
        match skipWs rest with
        | c1 :: r =>
          if c1 = rbraceChar then some (.obj [], r)
          else if c1 = quoteChar then
            (parseJStringChars (r.length + 1) r).bind fun kp =>
              match skipWs kp.2 with
              | ':' :: r2 =>
                (parseVal fuel r2).bind fun vp =>
                  (parseObjRestAux (parseVal fuel) (vp.2.length + 1) vp.2).map
                    fun q => (.obj ((String.mk kp.1, vp.1) :: q.1), q.2)
              | _ => none
          else none
        | [] => none
      else if c = '[' then
        match skipWs rest with
        | ']' :: r => some (.arr [], r)
        | r =>
          (parseVal fuel r).bind fun vp =>
            (parseArrRestAux (parseVal fuel) (vp.2.length + 1) vp.2).map
              fun q => (.arr (vp.1 :: q.1), q.2)
      else if c = quoteChar then
        (parseJStringChars (rest.length + 1) rest).map
          fun p => (.str (String.mk p.1), p.2)
      else if c = 't' then
        match rest with
        | 'r' :: 'u' :: 'e' :: r => some (.bool true, r)
        | _ => none
      else if c = 'f' then
        match rest with
        | 'a' :: 'l' :: 's' :: 'e' :: r => some (.bool false, r)
        | _ => none
      else if c = 'n' then
        match rest with
        | 'u' :: 'l' :: 'l' :: r => some (.null, r)
        | _ => none
      else parseNumFrom (c :: rest)

/-- Model of Python's `json.loads` on a character sequence: parse one
value and require only whitespace to remain. -/
def jsonLoads (cs : List Char) : Option JVal :=
  match parseVal (cs.length + 2) cs with
  | some p => if (skipWs p.2).isEmpty then some p.1 else none
  | none => none

/-- Python `dict.get` on a parsed JSON object (`none` when the key is
absent or the value is not an object).  Later duplicate keys win, as in
Python's dict construction. -/
def jvalGet (v : JVal) (key : String) : Option JVal :=
  match v with
  | .obj fields => (fields.reverse.find? (fun f => f.1 == key)).map (fun f => f.2)
  | _ => none

/-! ### PlatformClient.call_agent (platform_client.py lines 133-225) -/

/-- Observable outcome of one HTTP attempt inside `call_agent`.
`resp status body` is a served HTTP response whose `response.json()`
parses to `body` (`none` when `.json()` raises).  The remaining
constructors are the exception classes caught by `call_agent`, in the
order the handlers appear in the source. -/
inductive AttemptOutcome where
  | resp (status : Nat) (body : Option JVal)
  | timeout
  | connError
  | reqError (msg : String)
  | unexpectedError (msg : String)

/-- Python return value of `call_agent`: either the parsed response of a
200 (`success`) or one of the error dicts the function builds
(`{"error": ..., "status_code": ...}` / `{"error": ..., "type": ...}`),
with absent dict keys modelled as `none`. -/
inductive CallResult where
  | success (body : JVal)
  | err (error : JVal) (status_code : Option Nat) (etype : Option String)

/-- Result of a `call_agent` run, instrumented with the number of HTTP
attempts made and the sequence of delays slept (in seconds). -/
structure CallTrace where
  result : CallResult
  attempts : Nat
  sleeps : List ℚ

/-- One iteration of `call_agent`'s classification of an attempt
outcome: `inl r` means return `r` immediately; `inr (e, d)` means record
`e` as `last_error` and continue with retry delay `d` (the 429 branch
doubles the delay, capped at 30, before the common sleep). -/
def classifyAttempt (agent_id : String) (retry_delay : ℚ) :
    AttemptOutcome → Sum CallResult (CallResult × ℚ)
  | .resp status body =>
    if status = 200 then
      match body with
      | some v => Sum.inl (.success v)
      | none =>
        -- response.json() raised on the 200 path; the exception lands in
        -- the generic handler chain (the message text is abstracted).
        Sum.inr (.err (.str "Unexpected error: invalid JSON body") none
          (some "unexpected_error"), retry_delay)
    else if status = 404 then
      Sum.inl (.err (.str ("Agent " ++ agent_id ++ " not found")) (some 404) none)
    else if status = 408 then
      Sum.inr (.err (.str "Agent call timeout") (some 408) none, retry_delay)
    else if status = 429 then
      Sum.inr (.err (.str "Rate limited") (some 429) none, min (retry_delay * 2) 30)
    else if 500 ≤ status then
      Sum.inr (.err (.str ("Server error: " ++ toString status)) (some status) none,
        retry_delay)
    else
      -- "Client error - don't retry": try to extract a structured message.
      Sum.inl (match body with
        | some (.obj fields) =>
          .err ((jvalGet (.obj fields) "message").getD (.str "Unknown error"))
            (some status) none
        | _ => .err (.str ("HTTP " ++ toString status)) (some status) none)
  | .timeout =>
    Sum.inr (.err (.str "Connection timeout") none (some "timeout"), retry_delay)
  | .connError =>
    Sum.inr (.err (.str "Connection failed") none (some "connection_error"), retry_delay)
  | .reqError msg =>
    Sum.inr (.err (.str ("Request failed: " ++ msg)) none (some "request_error"),
      retry_delay)
  | .unexpectedError msg =>
    Sum.inr (.err (.str ("Unexpected error: " ++ msg)) none (some "unexpected_error"),
      retry_delay)

/-- The attempt loop of `call_agent`.  `fuel` is the number of attempts
still allowed (`max_retries + 1 - attempt`); the sleep before a retry
happens only while `attempt < max_retries`, i.e. while `fuel ≥ 2`, after
which `retry_delay` becomes `min (retry_delay * 1.5) 10`. -/
def callAgentGo (outcomes : Nat → AttemptOutcome) (agent_id : String) :
    Nat → Nat → ℚ → Option CallResult → CallTrace
  | 0, _, _, lastError =>
    ⟨lastError.getD (.err (.str "All retry attempts failed") none none), 0, []⟩
  | fuel + 1, attempt, retry_delay, _ =>
    match classifyAttempt agent_id retry_delay (outcomes attempt) with
    | Sum.inl r => ⟨r, 1, []⟩
    | Sum.inr (e, d) =>
      match fuel with
      | 0 => ⟨e, 1, []⟩
      | _ + 1 =>
        let rest := callAgentGo outcomes agent_id fuel (attempt + 1)
          (min (d * (3 / 2)) 10) (some e)
        ⟨rest.result, rest.attempts + 1, d :: rest.sleeps⟩

/-- `PlatformClient.call_agent`: up to `max_retries + 1` attempts,
starting with a retry delay of 1 second. -/
def callAgent (outcomes : Nat → AttemptOutcome) (agent_id : String)
    (max_retries : Nat) : CallTrace :=
  callAgentGo outcomes agent_id (max_retries + 1) 0 1 none

/-- Whether an attempt outcome makes `call_agent` continue retrying
(the `Sum.inr` branches of `classifyAttempt`). -/
def isRetryableAttempt : AttemptOutcome → Bool
  | .resp status body =>
    (status == 200 && body.isNone) ||
    (status != 200 && status != 404 &&
      (status == 408 || status == 429 || Nat.ble 500 status))
  | _ => true

/-- Whether an attempt outcome is an HTTP 429, the one case where
`call_agent` doubles the retry delay before sleeping. -/
def isRateLimited : AttemptOutcome → Bool
  | .resp status _ => status == 429
  | _ => false

/-- The delay schedule described by the spec, as a function of which
sleeping attempts were rate limited: the delay starts at `d`; a 429
doubles it (capped at 30) before the sleep; after every sleep it is
multiplied by 1.5 and capped at 10. -/
def claimedDelays : List Bool → ℚ → List ℚ
  | [], _ => []
  | rl :: rest, d =>
    (if rl then min (d * 2) 30 else d) ::
      claimedDelays rest (min ((if rl then min (d * 2) 30 else d) * (3 / 2)) 10)

/-- Rate-limited flags of `n` consecutive attempts starting at
`start`. -/
def rlFlags (outcomes : Nat → AttemptOutcome) (start : Nat) : Nat → List Bool
  | 0 => []
  | n + 1 => isRateLimited (outcomes start) :: rlFlags outcomes (start + 1) n

/-- The no-429 backoff schedule: `n` delays starting at `d`, each
multiplied by 1.5 after the sleep and capped at 10. -/
def noRLDelays : Nat → ℚ → List ℚ
  | 0, _ => []
  | n + 1, d => d :: noRLDelays n (min (d * (3 / 2)) 10)

/-! ### PlatformClient.find_agents (platform_client.py lines 64-131) -/

/-- Observable outcome of one HTTP attempt inside `find_agents`.
`resp 200 (some ags)` means the response parsed and
`response.json().get("agents", [])` yielded `ags` (a missing key yields
`some []`); `resp 200 none` means `.json()` raised. -/
inductive DiscoverOutcome where
  | resp (status : Nat) (agents : Option (List JVal))
  | timeout
  | connError
  | otherError

/-- Result of a `find_agents` run, instrumented like `CallTrace`. -/
structure DiscoverTrace where
  result : List JVal
  attempts : Nat
  sleeps : List ℚ

/-- The attempt loop of `find_agents`.  `fuel` is the number of attempts
still allowed; sleeps happen only while `attempt < max_retries`
(`fuel ≥ 2`): `1 * (attempt + 1)` after a 5xx, 0.5 after a timeout or a
generic exception, 1 after a connection error. -/
def findAgentsGo (outcomes : Nat → DiscoverOutcome) :
    Nat → Nat → DiscoverTrace
  | 0, _ => ⟨[], 0, []⟩
  | fuel + 1, attempt =>
    let next : ℚ → DiscoverTrace := fun slept =>
      match fuel with
      | 0 => ⟨[], 1, []⟩
      | _ + 1 =>
        let rest := findAgentsGo outcomes fuel (attempt + 1)
        ⟨rest.result, rest.attempts + 1, slept :: rest.sleeps⟩
    match outcomes attempt with
    | .resp status agents =>
      if status = 200 then
        match agents with
        | some ags => ⟨ags, 1, []⟩
        | none => next (1 / 2)
      else if status = 404 then ⟨[], 1, []⟩
      else if 500 ≤ status then next ((attempt : ℚ) + 1)
      else ⟨[], 1, []⟩
    | .timeout => next (1 / 2)
    | .connError => next 1
    | .otherError => next (1 / 2)

/-- `PlatformClient.find_agents`: up to `max_retries + 1` attempts. -/
def findAgents (outcomes : Nat → DiscoverOutcome) (max_retries : Nat) :
    DiscoverTrace :=
  findAgentsGo outcomes (max_retries + 1) 0

/-- Whether a discovery outcome makes `find_agents` continue retrying. -/
def isRetryableDiscover : DiscoverOutcome → Bool
  | .resp status agents =>
    (status == 200 && agents.isNone) ||
    (status != 200 && status != 404 && Nat.ble 500 status)
  | _ => true

/-! ### PlatformClient.ping and the health loop -/

/-- Observable outcome of the HTTP post inside `ping` or the health
loop. -/
inductive PingOutcome where
  | resp (status : Nat)
  | timeout
  | connError
  | otherError

/-- The raw `requests.post` of a heartbeat: network-level failures
raise. The embedding surfaces a raise as `Except.error`. -/
def pingRequest : PingOutcome → Except String Unit
  | .resp _ => Except.ok ()
  | .timeout => Except.error "Timeout"
  | .connError => Except.error "ConnectionError"
  | .otherError => Except.error "Exception"

/-- `PlatformClient.ping`: returns immediately when unregistered,
otherwise swallows every exception of the post (`except ...: pass`). -/
def ping (instance_id : Option String) (o : PingOutcome) : Except String Unit :=
  match instance_id with
  | none => Except.ok ()
  | some _ =>
    match pingRequest o with
    | Except.ok _ => Except.ok ()
    | Except.error _ => Except.ok ()

/-- One cycle of `_health_monitoring_loop`: the bare `except: pass`
around the post. -/
def healthLoopStep (o : PingOutcome) : Except String Unit :=
  match pingRequest o with
  | Except.ok _ => Except.ok ()
  | Except.error _ => Except.ok ()

/-- `_health_monitoring_loop`, one entry of `outcomes` per cycle; an
uncaught exception in a step would abort the loop.  Returns the number
of completed cycles. -/
def healthLoop : List PingOutcome → Except String Nat
  | [] => Except.ok 0
  | o :: rest =>
    match healthLoopStep o with
    | Except.ok _ => (healthLoop rest).map (fun n => n + 1)
    | Except.error e => Except.error e

/-! ### PlatformClient.register (platform_client.py lines 13-43) -/

/-- Observable outcome of the registration post: an HTTP response whose
`.json()` parses to `body` (`none` when it raises), or a raised
exception. -/
inductive RegisterOutcome where
  | resp (status : Nat) (body : Option JVal)
  | exn (msg : String)

/-- `PlatformClient.register`, with `self.instance_id` passed and
returned explicitly.  On a 200 it sets `instance_id` from
`data.get("instance_id")` and returns `True`; every other path returns
`False` with the state untouched (a `.json()` raise or a `.get` on a
non-dict lands in the `except` block before the assignment). -/
def register (instance_id : Option JVal) (o : RegisterOutcome) :
    Bool × Option JVal :=
  match o with
  | .exn _ => (false, instance_id)
  | .resp status body =>
    if status = 200 then
      match body with
      | some (.obj fields) => (true, jvalGet (.obj fields) "instance_id")
      | some _ => (false, instance_id)
      | none => (false, instance_id)
    else (false, instance_id)

/-! ### RealtimeIdeaAgent: collaboration requests and the polling wait -/

/-- A message fetched from the agent's inbox (platform-assigned `id`,
string `content`). -/
structure InboxMessage where
  id : Nat
  content : String

/-- Outcome of one poll of the inbox inside a polling loop:
`fetch status msgs` is an HTTP response (its messages list is read only
when `status = 200`); `httpError` is any raised exception, swallowed by
the loop. -/
inductive PollResult where
  | fetch (status : Nat) (messages : List InboxMessage)
  | httpError

/-- The request-id string built by `collaborate_with_agent`:
`f'collab_{int(time.time())}_{self.instance_id}'` and its analogues for
the other help types. -/
def collabRequestId (help_type : String) (now : Nat) (instance_id : String) :
    String :=
  (if help_type = "validator" then "collab_"
   else if help_type = "technical" then "tech_"
   else if help_type = "image_generator" then "img_"
   else "help_") ++ toString now ++ "_" ++ instance_id

/-- The request payload built by `collaborate_with_agent` for each help
type; every variant embeds the generated `request_id`. -/
def collabRequestData (help_type : String) (ideas : List JVal)
    (user_request : String) (request_id : String) : JVal :=
  if help_type = "validator" then
    .obj [("ideas", .arr ideas), ("problem", .str user_request),
      ("request_id", .str request_id)]
  else if help_type = "technical" then
    .obj [("ideas", .arr ideas), ("requirements", .str user_request),
      ("request_id", .str request_id)]
  else if help_type = "image_generator" then
    .obj [("ideas", .arr ideas), ("description", .str user_request),
      ("request_id", .str request_id)]
  else
    .obj [("ideas", .arr ideas), ("request", .str user_request),
      ("help_type", .str help_type), ("request_id", .str request_id)]

/-- The response content markers recognized by
`wait_for_collaboration_response`, in source order. -/
def responseTypes : List String :=
  ["validation_response:", "technical_response:", "image_response:",
   "help_response:", "validation_error:", "technical_error:",
   "image_error:", "help_error:"]

/-- The first recognized response marker that the content starts with,
if any (the source iterates `response_types` in order and takes the
first `content.startswith` hit). -/
def matchResponseType (content : String) : Option String :=
  responseTypes.find? (fun rt => rt.data.isPrefixOf content.data)

/-- The inner message scan of one poll iteration of
`wait_for_collaboration_response`: skip messages already in
`self.processed_messages`, and on the first recognized marker add the
message id to the set and attempt `json.loads` on the remainder —
returning the parsed payload on success and `None` on a parse failure.
`none` means the scan fell through with no marker hit. -/
def scanMessages (processed : List Nat) :
    List InboxMessage → Option (Option JVal × List Nat)
  | [] => none
  | m :: ms =>
    if m.id ∈ processed then scanMessages processed ms
    else
      match matchResponseType m.content with
      | none => scanMessages processed ms
      | some rt =>
        match jsonLoads (m.content.data.drop rt.data.length) with
        | some v => some (some v, m.id :: processed)
        | none => some (none, m.id :: processed)

/-- `RealtimeIdeaAgent.wait_for_collaboration_response`: one entry of
`polls` per 2-second iteration of the timeout window; an exhausted list
is the timeout (returning `None`).  The `request_type` argument is,
as in the source, not consulted by the matching logic. -/
def waitForCollaborationResponse (request_type : String)
    (processed : List Nat) : List PollResult → Option JVal × List Nat
  | [] => (none, processed)
  | p :: polls =>
    match p with
    | .httpError => waitForCollaborationResponse request_type processed polls
    | .fetch status msgs =>
      if status = 200 then
        match scanMessages processed msgs with
        | some r => r
        | none => waitForCollaborationResponse request_type processed polls
      else waitForCollaborationResponse request_type processed polls

/-! ### The message-processing loops (IdeaAgent and ValidatorAgent) -/

/-- Primitive events of a message-processing loop, in execution order:
`handle i` is the call to the message handler (where all side effects of
handling happen) and `mark i` is the addition of the message id to
`self.processed_messages`. -/
inductive MsgEvent where
  | handle (id : Nat)
  | mark (id : Nat)
deriving DecidableEq

/-- One fetched batch of `_message_processing_loop`: for each message
not yet in the set, the source calls the handler first and adds the id
afterwards (the handler swallows its own exceptions, so the addition
always executes). -/
def processMessages (processed : List Nat) :
    List InboxMessage → List MsgEvent × List Nat
  | [] => ([], processed)
  | m :: ms =>
    if m.id ∈ processed then processMessages processed ms
    else
      let step := processMessages (m.id :: processed) ms
      (MsgEvent.handle m.id :: MsgEvent.mark m.id :: step.1, step.2)

/-- `_message_processing_loop` (identical in IdeaAgent and
ValidatorAgent): one entry of `polls` per iteration; non-200 responses
and raised exceptions are skipped. -/
def messageProcessingLoop (processed : List Nat) :
    List PollResult → List MsgEvent × List Nat
  | [] => ([], processed)
  | PollResult.httpError :: polls => messageProcessingLoop processed polls
  | PollResult.fetch status msgs :: polls =>
    if status = 200 then
      let step := processMessages processed msgs
      let next := messageProcessingLoop step.2 polls
      (step.1 ++ next.1, next.2)
    else messageProcessingLoop processed polls

/-- Number of `handle i` events in a trace. -/
def handleCount (i : Nat) : List MsgEvent → Nat
  | [] => 0
  | MsgEvent.handle j :: tr => (if j = i then 1 else 0) + handleCount i tr
  | MsgEvent.mark _ :: tr => handleCount i tr

/-- Whether every `handle` event is preceded by a `mark` of the same id
(the ordering the de-duplication invariant of the spec requires).
`seen` carries the ids marked so far. -/
def marksPrecedeHandles (seen : List Nat) : List MsgEvent → Bool
  | [] => true
  | MsgEvent.mark i :: tr => marksPrecedeHandles (i :: seen) tr
  | MsgEvent.handle i :: tr => seen.contains i && marksPrecedeHandles seen tr

/-- Whether every `handle` event is immediately followed by the `mark`
of the same id. -/
def handlesImmediatelyMarked : List MsgEvent → Bool
  | [] => true
  | MsgEvent.handle i :: MsgEvent.mark j :: tr =>
    i == j && handlesImmediatelyMarked tr
  | MsgEvent.handle _ :: _ => false
  | MsgEvent.mark _ :: tr => handlesImmediatelyMarked tr

/-- Discriminator for the success constructor of `CallResult`. -/
def isSuccess : CallResult → Bool
  | .success _ => true
  | _ => false

/-- A concrete inbox message carrying a recognized response marker whose
payload names a request id different from any outstanding one. -/
def strayResponseMsg : InboxMessage :=
  ⟨1, "validation_response:\x7b\"request_id\": \"other\"\x7d"⟩

end Emergence

namespace Emergence

/-! ### Lemmas about the `call_agent` attempt loop -/

lemma callAgentGo_inl {o : Nat → AttemptOutcome} {aid : String} {attempt : Nat}
    {d : ℚ} {e : Option CallResult} {r : CallResult} (fuel : Nat)
    (h : classifyAttempt aid d (o attempt) = Sum.inl r) :
    callAgentGo o aid (fuel + 1) attempt d e = ⟨r, 1, []⟩ := by
  simp [callAgentGo, h]

lemma callAgentGo_inr_last {o : Nat → AttemptOutcome} {aid : String}
    {attempt : Nat} {d : ℚ} {e : Option CallResult} {e' : CallResult} {d' : ℚ}
    (h : classifyAttempt aid d (o attempt) = Sum.inr (e', d')) :
    callAgentGo o aid 1 attempt d e = ⟨e', 1, []⟩ := by
  simp [callAgentGo, h]

lemma callAgentGo_inr_step {o : Nat → AttemptOutcome} {aid : String}
    {attempt : Nat} {d : ℚ} {e : Option CallResult} {e' : CallResult} {d' : ℚ}
    (fuel : Nat)
    (h : classifyAttempt aid d (o attempt) = Sum.inr (e', d')) :
    callAgentGo o aid (fuel + 2) attempt d e =
      ⟨(callAgentGo o aid (fuel + 1) (attempt + 1) (min (d' * (3 / 2)) 10)
          (some e')).result,
       (callAgentGo o aid (fuel + 1) (attempt + 1) (min (d' * (3 / 2)) 10)
          (some e')).attempts + 1,
       d' :: (callAgentGo o aid (fuel + 1) (attempt + 1) (min (d' * (3 / 2)) 10)
          (some e')).sleeps⟩ := by
  simp [callAgentGo, h]

lemma isRetryableAttempt_resp_iff (status : Nat) (body : Option JVal) :
    isRetryableAttempt (.resp status body) = true ↔
      ((status = 200 ∧ body = none) ∨
       (status ≠ 200 ∧ status ≠ 404 ∧
         (status = 408 ∨ status = 429 ∨ 500 ≤ status))) := by
  simp only [isRetryableAttempt, Bool.or_eq_true, Bool.and_eq_true, beq_iff_eq,
    bne_iff_ne, ne_eq, Option.isNone_iff_eq_none, Nat.ble_eq]
  tauto

lemma classifyAttempt_of_retryable (aid : String) (d : ℚ) (ao : AttemptOutcome)
    (h : isRetryableAttempt ao = true) :
    ∃ e, classifyAttempt aid d ao =
      Sum.inr (e, if isRateLimited ao then min (d * 2) 30 else d) := by
  cases ao with
  | resp status body =>
    rw [isRetryableAttempt_resp_iff] at h
    rcases h with ⟨h200, hbody⟩ | ⟨h200, h404, hcase⟩
    · subst h200; subst hbody
      exact ⟨.err (.str "Unexpected error: invalid JSON body") none
        (some "unexpected_error"), by simp [classifyAttempt, isRateLimited]⟩
    · rcases hcase with h408 | h429 | h500
      · subst h408
        exact ⟨.err (.str "Agent call timeout") (some 408) none,
          by simp [classifyAttempt, isRateLimited]⟩
      · subst h429
        exact ⟨.err (.str "Rate limited") (some 429) none,
          by simp [classifyAttempt, isRateLimited]⟩
      · have h408 : status ≠ 408 := by omega
        have h429 : status ≠ 429 := by omega
        exact ⟨.err (.str ("Server error: " ++ toString status)) (some status) none,
          by simp [classifyAttempt, isRateLimited, h200, h404, h408, h429, h500]⟩
  | timeout =>
    exact ⟨.err (.str "Connection timeout") none (some "timeout"),
      by simp [classifyAttempt, isRateLimited]⟩
  | connError =>
    exact ⟨.err (.str "Connection failed") none (some "connection_error"),
      by simp [classifyAttempt, isRateLimited]⟩
  | reqError msg =>
    exact ⟨.err (.str ("Request failed: " ++ msg)) none (some "request_error"),
      by simp [classifyAttempt, isRateLimited]⟩
  | unexpectedError msg =>
    exact ⟨.err (.str ("Unexpected error: " ++ msg)) none (some "unexpected_error"),
      by simp [classifyAttempt, isRateLimited]⟩

lemma callAgentGo_success (o : Nat → AttemptOutcome) (aid : String) (v : JVal) :
    ∀ (k fuel attempt : Nat) (d : ℚ) (e : Option CallResult), k < fuel →
    (∀ i, i < k → isRetryableAttempt (o (attempt + i)) = true) →
    o (attempt + k) = .resp 200 (some v) →
    (callAgentGo o aid fuel attempt d e).result = .success v ∧
    (callAgentGo o aid fuel attempt d e).attempts = k + 1 := by
  intro k
  induction k with
  | zero =>
    intro fuel attempt d e hfuel _ h200
    obtain ⟨f, rfl⟩ : ∃ f, fuel = f + 1 := ⟨fuel - 1, by omega⟩
    have hcl : classifyAttempt aid d (o attempt) = Sum.inl (.success v) := by
      rw [show o attempt = .resp 200 (some v) from by simpa using h200]
      simp [classifyAttempt]
    rw [callAgentGo_inl f hcl]
    exact ⟨rfl, rfl⟩
  | succ k ih =>
    intro fuel attempt d e hfuel hre h200
    obtain ⟨f, rfl⟩ : ∃ f, fuel = f + 2 := ⟨fuel - 2, by omega⟩
    obtain ⟨e', hcl⟩ := classifyAttempt_of_retryable aid d (o attempt)
      (by simpa using hre 0 (Nat.succ_pos k))
    have hre' : ∀ i, i < k → isRetryableAttempt (o (attempt + 1 + i)) = true := by
      intro i hi
      have hh := hre (i + 1) (by omega)
      rwa [show attempt + (i + 1) = attempt + 1 + i from by omega] at hh
    have h200' : o (attempt + 1 + k) = .resp 200 (some v) := by
      rwa [show attempt + 1 + k = attempt + (k + 1) from by omega]
    have hres := ih (f + 1) (attempt + 1)
      (min ((if isRateLimited (o attempt) then min (d * 2) 30 else d) * (3 / 2)) 10)
      (some e') (by omega) hre' h200'
    rw [callAgentGo_inr_step f hcl]
    dsimp only
    exact ⟨hres.1, by have h2 := hres.2; omega⟩

lemma resp5xx_retryable {s : Nat} (b : Option JVal) (h : 500 ≤ s) :
    isRetryableAttempt (.resp s b) = true := by
  rw [isRetryableAttempt_resp_iff]
  exact Or.inr ⟨by omega, by omega, Or.inr (Or.inr h)⟩

/-! ### Claim theorems for `call_agent` -/

/-- C4: if the relay endpoint answers the first attempt of `call_agent`
with HTTP 404, the call returns the not-found error dict after exactly
one attempt, with no retry and no backoff sleep. -/
theorem c4_callAgent_404_no_retry (o : Nat → AttemptOutcome) (aid : String)
    (mr : Nat) (b : Option JVal) (h : o 0 = .resp 404 b) :
    callAgent o aid mr =
      ⟨.err (.str ("Agent " ++ aid ++ " not found")) (some 404) none, 1, []⟩ := by
  have hcl : classifyAttempt aid 1 (o 0) =
      Sum.inl (.err (.str ("Agent " ++ aid ++ " not found")) (some 404) none) := by
    rw [h]; simp [classifyAttempt]
  rw [callAgent, callAgentGo_inl mr hcl]

theorem c4_callAgent_404_no_retry_witness :
    callAgent (fun _ => .resp 404 none) "agent-7" 3 =
      ⟨.err (.str "Agent agent-7 not found") (some 404) none, 1, []⟩ :=
  c4_callAgent_404_no_retry (fun _ => .resp 404 none) "agent-7" 3 none rfl

/-- C5: if the relay endpoint returns a 500-class status on each of the
first `k` attempts and 200 on attempt `k + 1` (with `k < max_retries`),
`call_agent` returns the parsed successful payload and makes exactly
`k + 1` HTTP attempts. -/
theorem c5_callAgent_5xx_then_success (o : Nat → AttemptOutcome) (aid : String)
    (mr k : Nat) (v : JVal) (hk : k < mr)
    (h5 : ∀ i, i < k → ∃ s b, o i = .resp s b ∧ 500 ≤ s)
    (h200 : o k = .resp 200 (some v)) :
    (callAgent o aid mr).result = .success v ∧
    (callAgent o aid mr).attempts = k + 1 := by
  have hre : ∀ i, i < k → isRetryableAttempt (o (0 + i)) = true := by
    intro i hi
    obtain ⟨s, b, hob, hs⟩ := h5 i hi
    rw [Nat.zero_add, hob]
    exact resp5xx_retryable b hs
  exact callAgentGo_success o aid v k (mr + 1) 0 1 none (by omega) hre
    (by simpa using h200)

theorem c5_callAgent_5xx_then_success_witness :
    (callAgent (fun i => if i = 0 then .resp 503 none else .resp 200 (some (.str "ok")))
      "a1" 3).result = .success (.str "ok") ∧
    (callAgent (fun i => if i = 0 then .resp 503 none else .resp 200 (some (.str "ok")))
      "a1" 3).attempts = 2 :=
  c5_callAgent_5xx_then_success _ "a1" 3 1 (.str "ok") (by omega)
    (fun i hi => ⟨503, none, by rw [show i = 0 from by omega]; rfl, by omega⟩) rfl

/-- C2 (amended): exactly HTTP status 200 is a success for `call_agent`:
when attempt `k` returns a 200 with payload `v` after `k` retryable
outcomes, the call returns `v` itself — the same value whether `k = 0`
or the success came on a retried attempt — while any other 2xx status on
the first attempt is treated as a terminal client error (no success, one
attempt). -/
theorem c2_callAgent_only_200_success (o : Nat → AttemptOutcome) (aid : String)
    (mr : Nat) :
    (∀ k v, k ≤ mr → (∀ i, i < k → isRetryableAttempt (o i) = true) →
      o k = .resp 200 (some v) →
      (callAgent o aid mr).result = .success v ∧
      (callAgent o aid mr).attempts = k + 1) ∧
    (∀ s b, o 0 = .resp s b → 200 < s → s < 300 →
      isSuccess (callAgent o aid mr).result = false ∧
      (callAgent o aid mr).attempts = 1) := by
  constructor
  · intro k v hk hre h200
    exact callAgentGo_success o aid v k (mr + 1) 0 1 none (by omega)
      (fun i hi => by simpa using hre i hi) (by simpa using h200)
  · intro s b h0 hlo hhi
    have h404 : s ≠ 404 := by omega
    have h408 : s ≠ 408 := by omega
    have h429 : s ≠ 429 := by omega
    have h500 : ¬ 500 ≤ s := by omega
    have h200 : s ≠ 200 := by omega
    have hcl : ∃ er sc et, classifyAttempt aid 1 (o 0) = Sum.inl (.err er sc et) := by
      rw [h0]
      simp only [classifyAttempt, if_neg h200, if_neg h404, if_neg h408, if_neg h429,
        if_neg h500]
      cases b with
      | none => exact ⟨_, _, _, rfl⟩
      | some bv => cases bv <;> exact ⟨_, _, _, rfl⟩
    obtain ⟨er, sc, et, hcl⟩ := hcl
    rw [callAgent, callAgentGo_inl mr hcl]
    exact ⟨rfl, rfl⟩

theorem c2_callAgent_only_200_success_witness :
    ((callAgent (fun i => if i = 0 then .connError else .resp 200 (some (.num 5)))
        "a1" 2).result = .success (.num 5) ∧
      (callAgent (fun i => if i = 0 then .connError else .resp 200 (some (.num 5)))
        "a1" 2).attempts = 2) ∧
    (isSuccess (callAgent (fun _ => .resp 201 (some (.obj []))) "a1" 2).result
        = false ∧
      (callAgent (fun _ => .resp 201 (some (.obj []))) "a1" 2).attempts = 1) :=
  ⟨(c2_callAgent_only_200_success _ "a1" 2).1 1 (.num 5) (by omega)
      (fun i hi => by rw [show i = 0 from by omega]; rfl) rfl,
   (c2_callAgent_only_200_success _ "a1" 2).2 201 (some (.obj [])) rfl
      (by omega) (by omega)⟩

/-- C2 (counterexample): a 2xx status other than 200 is not returned as
a success: with every attempt answering 201 with a JSON body,
`call_agent` returns a client-error dict after one attempt instead of
the response payload. -/
theorem c2_counterexample :
    200 ≤ 201 ∧ 201 < 300 ∧
    (callAgent (fun _ => .resp 201 (some (.obj [("v", .str "x")]))) "a1" 3).result
      = .err (.str "Unknown error") (some 201) none ∧
    isSuccess (callAgent (fun _ => .resp 201 (some (.obj [("v", .str "x")]))) "a1"
      3).result = false :=
  ⟨by omega, by omega, rfl, rfl⟩

/-! ### Backoff-schedule lemmas for `call_agent` (claim C3) -/

lemma classifyAttempt_inr_delay {aid : String} {d : ℚ} {ao : AttemptOutcome}
    {e : CallResult} {d' : ℚ}
    (h : classifyAttempt aid d ao = Sum.inr (e, d')) :
    d' = if isRateLimited ao then min (d * 2) 30 else d := by
  cases ao with
  | resp status body =>
    simp only [classifyAttempt] at h
    split_ifs at h with h1 h2 h3 h4 h5
    · cases body with
      | some v => simp at h
      | none =>
        rw [Sum.inr.injEq, Prod.mk.injEq] at h
        have hrl : isRateLimited (AttemptOutcome.resp status none) = false := by
          simp [isRateLimited, h1]
        rw [hrl]
        simpa using h.2.symm
    · rw [Sum.inr.injEq, Prod.mk.injEq] at h
      have hrl : isRateLimited (AttemptOutcome.resp status body) = false := by
        simp [isRateLimited, h3]
      rw [hrl]
      simpa using h.2.symm
    · rw [Sum.inr.injEq, Prod.mk.injEq] at h
      have hrl : isRateLimited (AttemptOutcome.resp status body) = true := by
        simp [isRateLimited, h4]
      rw [hrl]
      simpa using h.2.symm
    · rw [Sum.inr.injEq, Prod.mk.injEq] at h
      have hrl : isRateLimited (AttemptOutcome.resp status body) = false := by
        simp [isRateLimited, h4]
      rw [hrl]
      simpa using h.2.symm
  | timeout =>
    simp only [classifyAttempt, Sum.inr.injEq, Prod.mk.injEq] at h
    simpa [isRateLimited] using h.2.symm
  | connError =>
    simp only [classifyAttempt, Sum.inr.injEq, Prod.mk.injEq] at h
    simpa [isRateLimited] using h.2.symm
  | reqError msg =>
    simp only [classifyAttempt, Sum.inr.injEq, Prod.mk.injEq] at h
    simpa [isRateLimited] using h.2.symm
  | unexpectedError msg =>
    simp only [classifyAttempt, Sum.inr.injEq, Prod.mk.injEq] at h
    simpa [isRateLimited] using h.2.symm

lemma callAgentGo_sleeps (o : Nat → AttemptOutcome) (aid : String) :
    ∀ (fuel attempt : Nat) (d : ℚ) (e : Option CallResult),
      (callAgentGo o aid fuel attempt d e).sleeps =
        claimedDelays
          (rlFlags o attempt (callAgentGo o aid fuel attempt d e).sleeps.length)
          d := by
  intro fuel
  induction fuel with
  | zero => intro attempt d e; rfl
  | succ f ih =>
    intro attempt d e
    cases hcl : classifyAttempt aid d (o attempt) with
    | inl r =>
      rw [callAgentGo_inl f hcl]
      rfl
    | inr p =>
      obtain ⟨e', d'⟩ := p
      cases f with
      | zero =>
        rw [callAgentGo_inr_last hcl]
        rfl
      | succ f2 =>
        have hd' := classifyAttempt_inr_delay hcl
        rw [callAgentGo_inr_step f2 hcl]
        dsimp only
        rw [List.length_cons, rlFlags, claimedDelays, ← hd']
        exact congrArg (fun l => d' :: l)
          (ih (attempt + 1) (min (d' * (3 / 2)) 10) (some e'))

lemma rlFlags_all_false {o : Nat → AttemptOutcome}
    (h : ∀ i, isRateLimited (o i) = false) :
    ∀ (n start : Nat), rlFlags o start n = List.replicate n false := by
  intro n
  induction n with
  | zero => intro start; rfl
  | succ m ih =>
    intro start
    rw [rlFlags, h start, ih (start + 1), List.replicate_succ]

lemma claimedDelays_replicate_false :
    ∀ (n : Nat) (d : ℚ), claimedDelays (List.replicate n false) d = noRLDelays n d := by
  intro n
  induction n with
  | zero => intro d; rfl
  | succ m ih =>
    intro d
    rw [List.replicate_succ, claimedDelays, noRLDelays]
    simp [ih]

lemma noRLDelays_mem_bounds :
    ∀ (n : Nat) (d : ℚ), 1 ≤ d → d ≤ 10 →
      ∀ x ∈ noRLDelays n d, 1 ≤ x ∧ x ≤ 10 := by
  intro n
  induction n with
  | zero => intro d _ _ x hx; simp [noRLDelays] at hx
  | succ m ih =>
    intro d h1 h10 x hx
    rw [noRLDelays] at hx
    rcases List.mem_cons.mp hx with rfl | hx
    · exact ⟨h1, h10⟩
    · exact ih _ (le_min (by linarith) (by norm_num)) (min_le_right _ _) x hx

lemma claimedDelays_mem_bounds :
    ∀ (flags : List Bool) (d : ℚ), 1 ≤ d → d ≤ 10 →
      ∀ x ∈ claimedDelays flags d, 1 ≤ x ∧ x ≤ 30 := by
  intro flags
  induction flags with
  | nil => intro d _ _ x hx; simp [claimedDelays] at hx
  | cons b bs ih =>
    intro d h1 h10 x hx
    rw [claimedDelays] at hx
    cases b with
    | false =>
      simp only [Bool.false_eq_true, if_false] at hx
      rcases List.mem_cons.mp hx with rfl | hx
      · exact ⟨h1, by linarith⟩
      · exact ih _ (le_min (by linarith) (by norm_num)) (min_le_right _ _) x hx
    | true =>
      simp only [if_true] at hx
      have hs1 : (1 : ℚ) ≤ min (d * 2) 30 := le_min (by linarith) (by norm_num)
      rcases List.mem_cons.mp hx with rfl | hx
      · exact ⟨hs1, min_le_right _ _⟩
      · exact ih _ (le_min (by linarith [hs1]) (by norm_num)) (min_le_right _ _) x hx

/-- C3: the delays slept by `call_agent` follow exactly the claimed
backoff schedule: the sequence of slept delays equals `claimedDelays`
(start at 1; a 429 doubles the pending delay, capped at 30, before the
sleep; after every sleep the delay is multiplied by 1.5 and capped at
10).  In particular, in a run without any 429 the delays are exactly
the canonical 1, 1.5, 2.25, ... schedule, all within [1, 10], and in
every run no slept delay exceeds the 30-second cap. -/
theorem c3_callAgent_backoff_schedule (o : Nat → AttemptOutcome) (aid : String)
    (mr : Nat) :
    (callAgent o aid mr).sleeps =
      claimedDelays (rlFlags o 0 (callAgent o aid mr).sleeps.length) 1 ∧
    ((∀ i, isRateLimited (o i) = false) →
      (callAgent o aid mr).sleeps =
        noRLDelays (callAgent o aid mr).sleeps.length 1) ∧
    ((∀ i, isRateLimited (o i) = false) →
      ∀ x ∈ (callAgent o aid mr).sleeps, 1 ≤ x ∧ x ≤ 10) ∧
    (∀ x ∈ (callAgent o aid mr).sleeps, 1 ≤ x ∧ x ≤ 30) := by
  have hchar : (callAgent o aid mr).sleeps =
      claimedDelays (rlFlags o 0 (callAgent o aid mr).sleeps.length) 1 :=
    callAgentGo_sleeps o aid (mr + 1) 0 1 none
  have hnorl : (∀ i, isRateLimited (o i) = false) →
      (callAgent o aid mr).sleeps =
        noRLDelays (callAgent o aid mr).sleeps.length 1 := by
    intro hno
    conv_lhs => rw [hchar, rlFlags_all_false hno, claimedDelays_replicate_false]
  refine ⟨hchar, hnorl, ?_, ?_⟩
  · intro hno x hx
    rw [hnorl hno] at hx
    exact noRLDelays_mem_bounds _ 1 le_rfl (by norm_num) x hx
  · intro x hx
    rw [hchar] at hx
    exact claimedDelays_mem_bounds _ 1 le_rfl (by norm_num) x hx

theorem c3_callAgent_backoff_schedule_witness :
    ((callAgent (fun _ => .resp 503 none) "a1" 2).sleeps =
      noRLDelays (callAgent (fun _ => .resp 503 none) "a1" 2).sleeps.length 1) ∧
    (callAgent (fun _ => .resp 503 none) "a1" 2).attempts = 3 :=
  ⟨(c3_callAgent_backoff_schedule (fun _ => .resp 503 none) "a1" 2).2.1
      (fun _ => rfl),
   rfl⟩

/-! ### Lemmas about the `find_agents` attempt loop (claim C8) -/

lemma isRetryableDiscover_resp_iff (s : Nat) (ags : Option (List JVal)) :
    isRetryableDiscover (.resp s ags) = true ↔
      ((s = 200 ∧ ags = none) ∨ (s ≠ 200 ∧ s ≠ 404 ∧ 500 ≤ s)) := by
  simp only [isRetryableDiscover, Bool.or_eq_true, Bool.and_eq_true, beq_iff_eq,
    bne_iff_ne, ne_eq, Option.isNone_iff_eq_none, Nat.ble_eq]
  tauto

lemma findAgentsGo_404 {o : Nat → DiscoverOutcome} {attempt : Nat} (fuel : Nat)
    {b : Option (List JVal)} (h : o attempt = .resp 404 b) :
    findAgentsGo o (fuel + 1) attempt = ⟨[], 1, []⟩ := by
  simp [findAgentsGo, h]

lemma findAgentsGo_terminal {o : Nat → DiscoverOutcome} {attempt : Nat}
    (fuel : Nat) {s : Nat} {b : Option (List JVal)} (h : o attempt = .resp s b)
    (h200 : s ≠ 200) (h404 : s ≠ 404) (h500 : ¬ 500 ≤ s) :
    findAgentsGo o (fuel + 1) attempt = ⟨[], 1, []⟩ := by
  simp [findAgentsGo, h, h200, h404, h500]

lemma findAgentsGo_retry_last {o : Nat → DiscoverOutcome} {attempt : Nat}
    (h : isRetryableDiscover (o attempt) = true) :
    findAgentsGo o 1 attempt = ⟨[], 1, []⟩ := by
  cases ho : o attempt with
  | resp s ags =>
    rw [ho, isRetryableDiscover_resp_iff] at h
    rcases h with ⟨h200, hags⟩ | ⟨h200, h404, h500⟩
    · subst h200; subst hags
      simp [findAgentsGo, ho]
    · have h5 : 500 ≤ s := h500
      simp [findAgentsGo, ho, h200, h404, h5]
  | timeout => simp [findAgentsGo, ho]
  | connError => simp [findAgentsGo, ho]
  | otherError => simp [findAgentsGo, ho]

lemma findAgentsGo_retry_step {o : Nat → DiscoverOutcome} {attempt : Nat}
    (fuel : Nat) (h : isRetryableDiscover (o attempt) = true) :
    (findAgentsGo o (fuel + 2) attempt).result =
      (findAgentsGo o (fuel + 1) (attempt + 1)).result ∧
    (findAgentsGo o (fuel + 2) attempt).attempts =
      (findAgentsGo o (fuel + 1) (attempt + 1)).attempts + 1 := by
  cases ho : o attempt with
  | resp s ags =>
    rw [ho, isRetryableDiscover_resp_iff] at h
    rcases h with ⟨h200, hags⟩ | ⟨h200, h404, h500⟩
    · subst h200; subst hags
      constructor <;> simp [findAgentsGo, ho]
    · have h5 : 500 ≤ s := h500
      constructor <;> simp [findAgentsGo, ho, h200, h404, h5]
  | timeout => constructor <;> simp [findAgentsGo, ho]
  | connError => constructor <;> simp [findAgentsGo, ho]
  | otherError => constructor <;> simp [findAgentsGo, ho]

lemma findAgentsGo_exhaust {o : Nat → DiscoverOutcome}
    (h : ∀ i, isRetryableDiscover (o i) = true) :
    ∀ (fuel attempt : Nat),
      (findAgentsGo o (fuel + 1) attempt).result = [] ∧
      (findAgentsGo o (fuel + 1) attempt).attempts = fuel + 1 := by
  intro fuel
  induction fuel with
  | zero =>
    intro attempt
    rw [findAgentsGo_retry_last (h attempt)]
    exact ⟨rfl, rfl⟩
  | succ f ih =>
    intro attempt
    obtain ⟨hr, ha⟩ := findAgentsGo_retry_step f (h attempt)
    obtain ⟨ihr, iha⟩ := ih (attempt + 1)
    exact ⟨hr.trans ihr, by rw [ha, iha]⟩

lemma findAgentsGo_404_after {o : Nat → DiscoverOutcome} :
    ∀ (j fuel attempt : Nat) (b : Option (List JVal)), j < fuel →
    (∀ i, i < j → isRetryableDiscover (o (attempt + i)) = true) →
    o (attempt + j) = .resp 404 b →
    (findAgentsGo o fuel attempt).result = [] ∧
    (findAgentsGo o fuel attempt).attempts = j + 1 := by
  intro j
  induction j with
  | zero =>
    intro fuel attempt b hf _ h404
    obtain ⟨f, rfl⟩ : ∃ f, fuel = f + 1 := ⟨fuel - 1, by omega⟩
    rw [findAgentsGo_404 f (by simpa using h404)]
    exact ⟨rfl, rfl⟩
  | succ j ih =>
    intro fuel attempt b hf hre h404
    obtain ⟨f, rfl⟩ : ∃ f, fuel = f + 2 := ⟨fuel - 2, by omega⟩
    obtain ⟨hr, ha⟩ := findAgentsGo_retry_step f
      (by simpa using hre 0 (Nat.succ_pos j))
    have h404' : o (attempt + 1 + j) = .resp 404 b := by
      rwa [show attempt + 1 + j = attempt + (j + 1) from by omega]
    have hre' : ∀ i, i < j → isRetryableDiscover (o (attempt + 1 + i)) = true := by
      intro i hi
      have hh := hre (i + 1) (by omega)
      rwa [show attempt + (i + 1) = attempt + 1 + i from by omega] at hh
    obtain ⟨ihr, iha⟩ := ih (f + 1) (attempt + 1) b (by omega) hre' h404'
    exact ⟨hr.trans ihr, by rw [ha, iha]⟩

/-- C8: `find_agents` never surfaces an error — its embedding always
returns a plain list — and its retry policy is: a 404 terminates the
attempt loop immediately with the empty list, short-circuiting any
remaining retries; retryable outcomes (5xx, a 200 whose body fails to
parse, timeouts, connection errors, other exceptions) are retried up to
the attempt bound, returning the empty list on exhaustion; and any other
terminal status returns the empty list after one attempt. -/
theorem c8_findAgents_error_handling (o : Nat → DiscoverOutcome) (mr : Nat) :
    (∀ (j : Nat) (b : Option (List JVal)), j ≤ mr →
      (∀ i, i < j → isRetryableDiscover (o i) = true) → o j = .resp 404 b →
      (findAgents o mr).result = [] ∧ (findAgents o mr).attempts = j + 1) ∧
    ((∀ i, isRetryableDiscover (o i) = true) →
      (findAgents o mr).result = [] ∧ (findAgents o mr).attempts = mr + 1) ∧
    (∀ (s : Nat) (b : Option (List JVal)), o 0 = .resp s b → s ≠ 200 → s ≠ 404 →
      ¬ 500 ≤ s →
      (findAgents o mr).result = [] ∧ (findAgents o mr).attempts = 1) := by
  refine ⟨?_, ?_, ?_⟩
  · intro j b hj hre h404
    exact findAgentsGo_404_after j (mr + 1) 0 b (by omega)
      (fun i hi => by simpa using hre i hi) (by simpa using h404)
  · intro h
    exact findAgentsGo_exhaust h mr 0
  · intro s b h0 h200 h404 h500
    rw [findAgents, findAgentsGo_terminal mr h0 h200 h404 h500]
    exact ⟨rfl, rfl⟩

theorem c8_findAgents_error_handling_witness :
    ((findAgents (fun i => if i = 0 then .resp 503 none else .resp 404 none)
        2).result = [] ∧
      (findAgents (fun i => if i = 0 then .resp 503 none else .resp 404 none)
        2).attempts = 2) ∧
    ((findAgents (fun _ => .connError) 1).result = [] ∧
      (findAgents (fun _ => .connError) 1).attempts = 2) :=
  ⟨(c8_findAgents_error_handling _ 2).1 1 none (by omega)
      (fun i hi => by rw [show i = 0 from by omega]; rfl) rfl,
   (c8_findAgents_error_handling _ 1).2.1 (fun _ => rfl)⟩

/-- C9: heartbeat sends never raise: for every outcome of the HTTP post
(any response status, a timeout, a connection error, or any other
exception) `ping` returns normally with no value, and the health
monitoring loop completes every one of its cycles. -/
theorem c9_heartbeat_never_raises :
    (∀ (iid : Option String) (po : PingOutcome), ping iid po = Except.ok ()) ∧
    (∀ outcomes : List PingOutcome, healthLoop outcomes = Except.ok outcomes.length) := by
  constructor
  · intro iid po
    cases iid with
    | none => rfl
    | some s => cases po <;> rfl
  · intro outcomes
    induction outcomes with
    | nil => rfl
    | cons po rest ih =>
      have hstep : healthLoopStep po = Except.ok () := by cases po <;> rfl
      simp [healthLoop, hstep, ih, Except.map]

/-- C10: `register` is atomic on failure: whenever it returns `False` —
a non-200 HTTP status, a raised transport exception, or an unparseable
200 body — the stored `instance_id` is left unchanged, and the state is
assigned only on the `True` path. -/
theorem c10_register_atomic_on_failure (st : Option JVal) (o : RegisterOutcome) :
    ((register st o).1 = false → (register st o).2 = st) ∧
    (∀ m, o = .exn m → register st o = (false, st)) ∧
    (∀ (s : Nat) (b : Option JVal), o = .resp s b → s ≠ 200 →
      register st o = (false, st)) := by
  refine ⟨?_, ?_, ?_⟩
  · intro hf
    cases o with
    | exn m => rfl
    | resp s b =>
      by_cases hs : s = 200
      · subst hs
        cases b with
        | none => rfl
        | some v =>
          cases v with
          | obj fields => simp [register] at hf
          | null => rfl
          | bool x => rfl
          | num n => rfl
          | str s2 => rfl
          | arr xs => rfl
      · simp [register, hs]
  · intro m hm
    subst hm
    rfl
  · intro s b hb hs
    subst hb
    simp [register, hs]

theorem c10_register_atomic_on_failure_witness :
    register none (.resp 500 none) = (false, none) ∧
    register none (.exn "ConnectionError") = (false, none) :=
  ⟨(c10_register_atomic_on_failure none (.resp 500 none)).2.2 500 none rfl
      (by omega),
   (c10_register_atomic_on_failure none (.exn "ConnectionError")).2.1
      "ConnectionError" rfl⟩

/-! ### Lemmas about the polling correlation wait (claims C1 and C7) -/

lemma scanMessages_append_skip {processed : List Nat} :
    ∀ (pre rest : List InboxMessage),
      (∀ m' ∈ pre, m'.id ∈ processed ∨ matchResponseType m'.content = none) →
      scanMessages processed (pre ++ rest) = scanMessages processed rest := by
  intro pre
  induction pre with
  | nil => intro rest _; rfl
  | cons m pre ih =>
    intro rest hpre
    have htail : ∀ m' ∈ pre, m'.id ∈ processed ∨ matchResponseType m'.content = none :=
      fun m' hm' => hpre m' (List.mem_cons_of_mem m hm')
    by_cases hid : m.id ∈ processed
    · rw [List.cons_append, scanMessages, if_pos hid]
      exact ih rest htail
    · rcases hpre m (List.mem_cons_self m pre) with hid' | hmt
      · exact absurd hid' hid
      · rw [List.cons_append, scanMessages, if_neg hid, hmt]
        exact ih rest htail

lemma scanMessages_hit_parse {processed : List Nat} {m : InboxMessage}
    {rt : String} {v : JVal} (post : List InboxMessage)
    (hid : m.id ∉ processed) (hmt : matchResponseType m.content = some rt)
    (hp : jsonLoads (m.content.data.drop rt.data.length) = some v) :
    scanMessages processed (m :: post) = some (some v, m.id :: processed) := by
  simp only [scanMessages, if_neg hid, hmt, hp]

lemma scanMessages_hit_malformed {processed : List Nat} {m : InboxMessage}
    {rt : String} (post : List InboxMessage)
    (hid : m.id ∉ processed) (hmt : matchResponseType m.content = some rt)
    (hp : jsonLoads (m.content.data.drop rt.data.length) = none) :
    scanMessages processed (m :: post) = some (none, m.id :: processed) := by
  simp only [scanMessages, if_neg hid, hmt, hp]

lemma collabRequestData_embeds_id (help_type user_request : String)
    (ideas : List JVal) (request_id : String) :
    jvalGet (collabRequestData help_type ideas user_request request_id)
      "request_id" = some (.str request_id) := by
  unfold collabRequestData
  split_ifs <;> rfl

/-- C1 (amended): the request built by `collaborate_with_agent` does
embed its generated request id, but `wait_for_collaboration_response`
correlates by recognized content-prefix only and never consults any
request id: for any outstanding request whatsoever, the wait returns the
parsed payload of the first unprocessed prefix-matching inbox message —
whatever request id that payload names — marks exactly that message
processed, and returns at most this one response. -/
theorem c1_wait_matches_by_type_only (help_type user_request rqt : String)
    (ideas : List JVal) (now : Nat) (iid : String) (processed : List Nat)
    (rest : List PollResult) (pre post : List InboxMessage) (m : InboxMessage)
    (v : JVal) (rt : String)
    (hpre : ∀ m' ∈ pre, m'.id ∈ processed ∨ matchResponseType m'.content = none)
    (hid : m.id ∉ processed)
    (hmt : matchResponseType m.content = some rt)
    (hp : jsonLoads (m.content.data.drop rt.data.length) = some v) :
    jvalGet (collabRequestData help_type ideas user_request
        (collabRequestId help_type now iid)) "request_id"
      = some (.str (collabRequestId help_type now iid)) ∧
    waitForCollaborationResponse rqt processed
        (PollResult.fetch 200 (pre ++ m :: post) :: rest)
      = (some v, m.id :: processed) := by
  refine ⟨collabRequestData_embeds_id _ _ _ _, ?_⟩
  simp [waitForCollaborationResponse,
    scanMessages_append_skip pre (m :: post) hpre,
    scanMessages_hit_parse post hid hmt hp]

theorem c1_wait_matches_by_type_only_witness :
    jvalGet (collabRequestData "validator" [] "u"
        (collabRequestId "validator" 100 "7")) "request_id"
      = some (.str (collabRequestId "validator" 100 "7")) ∧
    waitForCollaborationResponse "validate_ideas" []
        [PollResult.fetch 200 [strayResponseMsg]]
      = (some (.obj [("request_id", .str "other")]), [1]) :=
  c1_wait_matches_by_type_only "validator" "u" "validate_ideas" [] 100 "7" [] []
    [] [] strayResponseMsg (.obj [("request_id", .str "other")])
    "validation_response:" (by simp) (by simp) rfl rfl

/-- C1 (counterexample): with request id `collab_100_7` outstanding, the
wait returns the payload of a prefix-matching message whose embedded
request id is `"other"` — the returned payload does not embed the
request's id, because the poller never matches on it. -/
theorem c1_counterexample :
    collabRequestId "validator" 100 "7" = "collab_100_7" ∧
    (waitForCollaborationResponse "validate_ideas" []
        [PollResult.fetch 200 [strayResponseMsg]]).1
      = some (.obj [("request_id", .str "other")]) ∧
    jvalGet (.obj [("request_id", .str "other")]) "request_id"
      = some (.str "other") ∧
    some (JVal.str "other") ≠ some (JVal.str "collab_100_7") := by
  refine ⟨rfl, rfl, rfl, ?_⟩
  intro h
  injection h with h1
  injection h1 with h2
  exact absurd h2 (by decide)

/-- C7: when an unprocessed inbox message starts with a recognized
response marker but the remainder fails to parse as JSON, the wait
returns the failure value immediately — marking only that message id
processed and ignoring every remaining poll of the timeout window — for
all possible continuations of the poll sequence. -/
theorem c7_wait_malformed_immediate (rqt : String) (processed : List Nat)
    (rest : List PollResult) (pre post : List InboxMessage) (m : InboxMessage)
    (rt : String)
    (hpre : ∀ m' ∈ pre, m'.id ∈ processed ∨ matchResponseType m'.content = none)
    (hid : m.id ∉ processed)
    (hmt : matchResponseType m.content = some rt)
    (hp : jsonLoads (m.content.data.drop rt.data.length) = none) :
    waitForCollaborationResponse rqt processed
        (PollResult.fetch 200 (pre ++ m :: post) :: rest)
      = (none, m.id :: processed) := by
  simp [waitForCollaborationResponse,
    scanMessages_append_skip pre (m :: post) hpre,
    scanMessages_hit_malformed post hid hmt hp]

theorem c7_wait_malformed_immediate_witness :
    waitForCollaborationResponse "validate_ideas" []
        [PollResult.fetch 200 [⟨2, "validation_error:notjson"⟩],
         PollResult.fetch 200 [strayResponseMsg]]
      = (none, [2]) :=
  c7_wait_malformed_immediate "validate_ideas" []
    [PollResult.fetch 200 [strayResponseMsg]] [] []
    ⟨2, "validation_error:notjson"⟩ "validation_error:"
    (by simp) (by simp) rfl rfl

/-! ### Lemmas about the message-processing loops (claim C6) -/

lemma handleCount_append (i : Nat) :
    ∀ (a b : List MsgEvent),
      handleCount i (a ++ b) = handleCount i a + handleCount i b := by
  intro a b
  induction a with
  | nil => simp [handleCount]
  | cons ev tr ih =>
    cases ev with
    | handle j => simp [handleCount, ih, Nat.add_assoc]
    | mark j => simp [handleCount, ih]

lemma processMessages_spec :
    ∀ (msgs : List InboxMessage) (processed : List Nat) (i : Nat),
      (i ∈ processed → handleCount i (processMessages processed msgs).1 = 0) ∧
      handleCount i (processMessages processed msgs).1 ≤ 1 ∧
      (i ∈ processed → i ∈ (processMessages processed msgs).2) ∧
      (1 ≤ handleCount i (processMessages processed msgs).1 →
        i ∈ (processMessages processed msgs).2) := by
  intro msgs
  induction msgs with
  | nil =>
    intro processed i
    refine ⟨fun _ => rfl, by simp [processMessages, handleCount], fun h => h, ?_⟩
    intro h
    simp [processMessages, handleCount] at h
  | cons m ms ih =>
    intro processed i
    by_cases hm : m.id ∈ processed
    · have heq : processMessages processed (m :: ms) =
          processMessages processed ms := by
        simp [processMessages, if_pos hm]
      rw [heq]
      exact ih processed i
    · have heq : processMessages processed (m :: ms) =
          (MsgEvent.handle m.id :: MsgEvent.mark m.id ::
            (processMessages (m.id :: processed) ms).1,
           (processMessages (m.id :: processed) ms).2) := by
        simp [processMessages, if_neg hm]
      rw [heq]
      obtain ⟨ih0, ih1, ihmem, ihhan⟩ := ih (m.id :: processed) i
      dsimp only
      by_cases hmi : m.id = i
      · subst hmi
        have h0 := ih0 (List.mem_cons_self _ _)
        refine ⟨fun hip => absurd hip hm, ?_, ?_, ?_⟩
        · simp [handleCount, h0]
        · intro _; exact ihmem (List.mem_cons_self _ _)
        · intro _; exact ihmem (List.mem_cons_self _ _)
      · refine ⟨?_, ?_, ?_, ?_⟩
        · intro hip
          have h0 := ih0 (List.mem_cons_of_mem _ hip)
          simp [handleCount, hmi, h0]
        · simpa [handleCount, hmi] using ih1
        · intro hip
          exact ihmem (List.mem_cons_of_mem _ hip)
        · intro hh
          apply ihhan
          simpa [handleCount, hmi] using hh

lemma messageProcessingLoop_spec :
    ∀ (polls : List PollResult) (processed : List Nat) (i : Nat),
      (i ∈ processed →
        handleCount i (messageProcessingLoop processed polls).1 = 0) ∧
      handleCount i (messageProcessingLoop processed polls).1 ≤ 1 ∧
      (i ∈ processed → i ∈ (messageProcessingLoop processed polls).2) ∧
      (1 ≤ handleCount i (messageProcessingLoop processed polls).1 →
        i ∈ (messageProcessingLoop processed polls).2) := by
  intro polls
  induction polls with
  | nil =>
    intro processed i
    refine ⟨fun _ => rfl, by simp [messageProcessingLoop, handleCount],
      fun h => h, ?_⟩
    intro h
    simp [messageProcessingLoop, handleCount] at h
  | cons p ps ih =>
    intro processed i
    cases p with
    | httpError => exact ih processed i
    | fetch status msgs =>
      by_cases hs : status = 200
      · subst hs
        have heq : messageProcessingLoop processed
            (PollResult.fetch 200 msgs :: ps) =
            ((processMessages processed msgs).1 ++
              (messageProcessingLoop (processMessages processed msgs).2 ps).1,
             (messageProcessingLoop (processMessages processed msgs).2 ps).2) := by
          simp [messageProcessingLoop]
        rw [heq]
        obtain ⟨pm0, pm1, pmmem, pmhan⟩ := processMessages_spec msgs processed i
        obtain ⟨lp0, lp1, lpmem, lphan⟩ := ih (processMessages processed msgs).2 i
        dsimp only
        rw [handleCount_append]
        refine ⟨?_, ?_, ?_, ?_⟩
        · intro hip
          rw [pm0 hip, lp0 (pmmem hip)]
        · by_cases ha : 1 ≤ handleCount i (processMessages processed msgs).1
          · have hb := lp0 (pmhan ha)
            omega
          · omega
        · intro hip
          exact lpmem (pmmem hip)
        · intro hh
          by_cases ha : 1 ≤ handleCount i (processMessages processed msgs).1
          · exact lpmem (pmhan ha)
          · have hb : 1 ≤ handleCount i
                (messageProcessingLoop (processMessages processed msgs).2 ps).1 := by
              omega
            exact lphan hb
      · have heq : messageProcessingLoop processed
            (PollResult.fetch status msgs :: ps) =
            messageProcessingLoop processed ps := by
          simp [messageProcessingLoop, hs]
        rw [heq]
        exact ih processed i

lemma handlesImmediatelyMarked_processMessages :
    ∀ (msgs : List InboxMessage) (processed : List Nat) (t : List MsgEvent),
      handlesImmediatelyMarked ((processMessages processed msgs).1 ++ t) =
        handlesImmediatelyMarked t := by
  intro msgs
  induction msgs with
  | nil => intro processed t; rfl
  | cons m ms ih =>
    intro processed t
    by_cases hm : m.id ∈ processed
    · have heq : processMessages processed (m :: ms) =
          processMessages processed ms := by
        simp [processMessages, if_pos hm]
      rw [heq]
      exact ih processed t
    · have heq : processMessages processed (m :: ms) =
          (MsgEvent.handle m.id :: MsgEvent.mark m.id ::
            (processMessages (m.id :: processed) ms).1,
           (processMessages (m.id :: processed) ms).2) := by
        simp [processMessages, if_neg hm]
      rw [heq]
      dsimp only
      rw [List.cons_append, List.cons_append]
      simp [handlesImmediatelyMarked, ih]

lemma handlesImmediatelyMarked_loop :
    ∀ (polls : List PollResult) (processed : List Nat),
      handlesImmediatelyMarked (messageProcessingLoop processed polls).1 = true := by
  intro polls
  induction polls with
  | nil => intro processed; rfl
  | cons p ps ih =>
    intro processed
    cases p with
    | httpError => exact ih processed
    | fetch status msgs =>
      by_cases hs : status = 200
      · subst hs
        have heq : messageProcessingLoop processed
            (PollResult.fetch 200 msgs :: ps) =
            ((processMessages processed msgs).1 ++
              (messageProcessingLoop (processMessages processed msgs).2 ps).1,
             (messageProcessingLoop (processMessages processed msgs).2 ps).2) := by
          simp [messageProcessingLoop]
        rw [heq]
        dsimp only
        rw [handlesImmediatelyMarked_processMessages]
        exact ih (processMessages processed msgs).2
      · have heq : messageProcessingLoop processed
            (PollResult.fetch status msgs :: ps) =
            messageProcessingLoop processed ps := by
          simp [messageProcessingLoop, hs]
        rw [heq]
        exact ih processed

/-- C6 (amended): in the message-processing loops every inbox message is
handled at most once — an id already in the de-duplication set is never
handled, and no id is handled twice across all iterations — and each
message id is added to the set immediately after its handler returns
(the handler swallows its own exceptions, so the addition always
executes); the addition happens after the handling side effects, not
before them. -/
theorem c6_message_loop_dedup (processed : List Nat) (polls : List PollResult) :
    (∀ i, handleCount i (messageProcessingLoop processed polls).1 ≤ 1) ∧
    (∀ i, i ∈ processed →
      handleCount i (messageProcessingLoop processed polls).1 = 0) ∧
    handlesImmediatelyMarked (messageProcessingLoop processed polls).1 = true :=
  ⟨fun i => (messageProcessingLoop_spec polls processed i).2.1,
   fun i h => (messageProcessingLoop_spec polls processed i).1 h,
   handlesImmediatelyMarked_loop polls processed⟩

theorem c6_message_loop_dedup_witness :
    handleCount 5 (messageProcessingLoop [9]
      [PollResult.fetch 200 [⟨9, "a"⟩, ⟨5, "b"⟩]]).1 ≤ 1 ∧
    handleCount 9 (messageProcessingLoop [9]
      [PollResult.fetch 200 [⟨9, "a"⟩, ⟨5, "b"⟩]]).1 = 0 ∧
    handlesImmediatelyMarked (messageProcessingLoop [9]
      [PollResult.fetch 200 [⟨9, "a"⟩, ⟨5, "b"⟩]]).1 = true :=
  ⟨(c6_message_loop_dedup [9] [PollResult.fetch 200 [⟨9, "a"⟩, ⟨5, "b"⟩]]).1 5,
   (c6_message_loop_dedup [9] [PollResult.fetch 200 [⟨9, "a"⟩, ⟨5, "b"⟩]]).2.1 9
     (by simp),
   (c6_message_loop_dedup [9] [PollResult.fetch 200 [⟨9, "a"⟩, ⟨5, "b"⟩]]).2.2⟩

/-- C6 (counterexample): handling a fresh message emits its handling
side effects before its id enters the de-duplication set: the run's
event trace is `handle 5` followed by `mark 5`, so the trace fails the
marked-before-handled ordering the claim asserts. -/
theorem c6_counterexample :
    (messageProcessingLoop [] [PollResult.fetch 200 [⟨5, "generate_ideas:x"⟩]]).1
      = [MsgEvent.handle 5, MsgEvent.mark 5] ∧
    marksPrecedeHandles []
      (messageProcessingLoop [] [PollResult.fetch 200 [⟨5, "generate_ideas:x"⟩]]).1
      = false :=
  ⟨rfl, rfl⟩

end Emergence
